import Mathlib

/-!
Shallow embedding of two modules of the `rust-http2` repository:

* `src/solicit/window_size.rs` — the HTTP/2 flow-control window counter
  (`WindowSize`, a wrapper around an `i32`), with its guarded mutation
  operations `try_increase`, `try_decrease`, `try_decrease_to_positive`
  and the accessors `size` / `unsigned`.
* `httpbis/src/solicit/header/value.rs` — header-value byte validation
  (`HeaderValue::from_bytes`) and its conversions.

Rust machine integers are embedded as `Int` / `Nat` with the 32-bit
bounds made explicit: `i32` values live in `[i32Min, i32Max]`, `u32`
values in `[0, 2^32)`, and the `checked_add` / `checked_sub` intrinsics
and the `as` casts are modelled directly.  A Rust method that mutates
`self` and returns `Result<(), ()>` is embedded as a function returning
the pair of the result (`Except Unit Unit`) and the post-state, so that
"the window is unchanged on failure" is a provable statement.  A Rust
panic is embedded as the `none` case of an `Option` result.
-/

/-! ## 32-bit integer model -/

/-- Smallest value of a Rust `i32`. -/
def i32Min : Int := -(2 ^ 31)

/-- Largest value of a Rust `i32`. -/
def i32Max : Int := 2 ^ 31 - 1

/-- The Rust cast `d as i32` for a `u32` value `d` (two's-complement
reinterpretation of the 32-bit pattern). -/
def u32_as_i32 (d : Nat) : Int :=
  if d < 2 ^ 31 then (d : Int) else (d : Int) - 2 ^ 32

/-- The Rust cast `v as u32` for an `i32` value `v` (two's-complement
reinterpretation of the 32-bit pattern). -/
def i32_as_u32 (v : Int) : Nat :=
  (v % 2 ^ 32).toNat

/-- Rust `i32::checked_add`: the sum when it fits the `i32` range, `none`
on overflow. -/
def i32CheckedAdd (a b : Int) : Option Int :=
  if i32Min ≤ a + b ∧ a + b ≤ i32Max then some (a + b) else none

/-- Rust `i32::checked_sub`: the difference when it fits the `i32` range,
`none` on overflow or underflow. -/
def i32CheckedSub (a b : Int) : Option Int :=
  if i32Min ≤ a - b ∧ a - b ≤ i32Max then some (a - b) else none

/-! ## `window_size.rs` -/

/-- Source: `pub const MAX_WINDOW_SIZE: u32 = 0x7fffffff;` -/
def MAX_WINDOW_SIZE : Nat := 0x7fffffff

/-- Source: `pub const MAX_WINDOW_SIZE_INC: u32 = 0x7fffffff;` -/
def MAX_WINDOW_SIZE_INC : Nat := 0x7fffffff

/-- Source: `pub struct WindowSize(pub i32);` — the field is the `i32` value. -/
structure WindowSize where
  val : Int
deriving DecidableEq, Repr

/-- Source: `WindowSize::try_increase(&mut self, delta: u32) -> Result<(), ()>`.
Returns the result together with the post-state of `self`.  Mirrors the
source: reject `delta > MAX_WINDOW_SIZE_INC || delta == 0`, then
`self.0.checked_add(delta as i32)`; commit only in the `Some` case. -/
def WindowSize.try_increase (w : WindowSize) (delta : Nat) :
    Except Unit Unit × WindowSize :=
  if MAX_WINDOW_SIZE_INC < delta ∨ delta = 0 then
    (Except.error (), w)
  else
    match i32CheckedAdd w.val (u32_as_i32 delta) with
    | none => (Except.error (), w)
    | some next_val => (Except.ok (), ⟨next_val⟩)

/-- Source: `WindowSize::try_decrease(&mut self, delta: i32) -> Result<(), ()>`.
`self.0.checked_sub(delta)`; commit only in the `Some` case. -/
def WindowSize.try_decrease (w : WindowSize) (delta : Int) :
    Except Unit Unit × WindowSize :=
  match i32CheckedSub w.val delta with
  | some new => (Except.ok (), ⟨new⟩)
  | none => (Except.error (), w)

/-- Source: `WindowSize::try_decrease_to_positive(&mut self, delta: i32) ->
Result<(), ()>`.  `self.0.checked_sub(delta)`; commit only when the
difference exists and is non-negative (`Some(new) if new >= 0`). -/
def WindowSize.try_decrease_to_positive (w : WindowSize) (delta : Int) :
    Except Unit Unit × WindowSize :=
  match i32CheckedSub w.val delta with
  | some new => if 0 ≤ new then (Except.ok (), ⟨new⟩) else (Except.error (), w)
  | none => (Except.error (), w)

/-- Source: `WindowSize::new(size: i32) -> WindowSize`. -/
def WindowSize.new (size : Int) : WindowSize := ⟨size⟩

/-- Source: `WindowSize::size(&self) -> i32`. -/
def WindowSize.size (w : WindowSize) : Int := w.val

/-- Source: `WindowSize::unsigned(&self) -> u32`:
`let r = self.0 as u32; assert_eq!(r as i32, self.0); r`.
A failing `assert_eq!` is a panic, embedded as `none`. -/
def WindowSize.unsigned (w : WindowSize) : Option Nat :=
  let r := i32_as_u32 w.val
  if u32_as_i32 r = w.val then some r else none

/-! ## Helper lemmas for the window operations -/

/-- Unfolding of `try_increase` into its three outcomes. -/
theorem try_increase_eq (w : WindowSize) (delta : Nat) :
    w.try_increase delta =
      if MAX_WINDOW_SIZE_INC < delta ∨ delta = 0 then (Except.error (), w)
      else if i32Min ≤ w.val + u32_as_i32 delta ∧ w.val + u32_as_i32 delta ≤ i32Max then
        (Except.ok (), ⟨w.val + u32_as_i32 delta⟩)
      else (Except.error (), w) := by
  unfold WindowSize.try_increase i32CheckedAdd
  split_ifs <;> rfl

/-- Unfolding of `try_decrease` into its two outcomes. -/
theorem try_decrease_eq (w : WindowSize) (delta : Int) :
    w.try_decrease delta =
      if i32Min ≤ w.val - delta ∧ w.val - delta ≤ i32Max then
        (Except.ok (), ⟨w.val - delta⟩)
      else (Except.error (), w) := by
  unfold WindowSize.try_decrease i32CheckedSub
  split_ifs <;> rfl

/-- Unfolding of `try_decrease_to_positive` into its outcomes. -/
theorem try_decrease_to_positive_eq (w : WindowSize) (delta : Int) :
    w.try_decrease_to_positive delta =
      if i32Min ≤ w.val - delta ∧ w.val - delta ≤ i32Max then
        (if 0 ≤ w.val - delta then (Except.ok (), ⟨w.val - delta⟩)
         else (Except.error (), w))
      else (Except.error (), w) := by
  unfold WindowSize.try_decrease_to_positive i32CheckedSub
  split_ifs with h1 h2
  · simp [h2]
  · simp [h2]
  · rfl

/-! ## `header/value.rs` -/

/-- The two error kinds `HeaderValue::from_bytes` can return (variants of
`HeaderError` in the source). -/
inductive HeaderError where
  | HeaderValueNotAscii
  | IncorrectCharInValue
deriving DecidableEq, Repr

/-- Source: `pub struct HeaderValue(Ascii);` — `Ascii` is a transparent wrapper
around the owned byte buffer, embedded as the list of byte values. -/
structure HeaderValue where
  bytes : List Nat
deriving DecidableEq, Repr

/-- The loop body of `HeaderValue::from_bytes`: scan the bytes in order
and report the error kind of the first offending byte, `none` when all
bytes pass.  Each byte `b` is checked exactly as in the source:
`!b.is_ascii()` (that is `¬ b ≤ 0x7f`) gives `HeaderValueNotAscii`, then
`(b < b' ' || b > b'~') && b != b'\t'` gives `IncorrectCharInValue`. -/
def scanValue : List Nat → Option HeaderError
  | [] => none
  | b :: rest =>
    if ¬ b ≤ 0x7f then some HeaderError.HeaderValueNotAscii
    else if (b < 0x20 ∨ 0x7e < b) ∧ b ≠ 0x09 then some HeaderError.IncorrectCharInValue
    else scanValue rest

/-- Source: `HeaderValue::from_bytes(bs: Bytes) -> Result<HeaderValue, (HeaderError, Bytes)>`:
on the first offending byte the original buffer `bs` is returned with the
error; otherwise the buffer is wrapped unchanged. -/
def HeaderValue.from_bytes (bs : List Nat) :
    Except (HeaderError × List Nat) HeaderValue :=
  match scanValue bs with
  | some e => Except.error (e, bs)
  | none => Except.ok ⟨bs⟩

/-- Source: `HeaderValue::into_inner(self) -> Bytes` (via `Ascii::into_bytes`). -/
def HeaderValue.into_inner (v : HeaderValue) : List Nat := v.bytes

/-- Source: `HeaderValue::as_slice(&self) -> &[u8]` (via `Ascii::as_bytes`). -/
def HeaderValue.as_slice (v : HeaderValue) : List Nat := v.bytes

/-- The infallible conversions `From<Bytes> / From<Vec<u8>> / From<&[u8]>
/ From<String> / From<&str> for HeaderValue`: all funnel into
`HeaderValue::from_bytes(bytes).map_err(|(e, _)| e).unwrap()`.  The
`unwrap` panic on a validation error is embedded as `none`. -/
def headerValueFrom (bs : List Nat) : Option HeaderValue :=
  match HeaderValue.from_bytes bs with
  | Except.ok v => some v
  | Except.error _ => none

/-- The header-value byte invariant as the specification words it: the
byte is 0x09 (horizontal tab) or in the visible-ASCII range
[0x20, 0x7E]. -/
abbrev ValidByte (b : Nat) : Prop := b = 0x09 ∨ (0x20 ≤ b ∧ b ≤ 0x7e)

/-- The scan succeeds exactly when every byte satisfies the header-value
byte invariant. -/
theorem scanValue_eq_none_iff (bs : List Nat) :
    scanValue bs = none ↔ ∀ b ∈ bs, ValidByte b := by
  induction bs with
  | nil => simp [scanValue]
  | cons b rest ih =>
    rw [scanValue]
    split_ifs with h1 h2
    · simp only [false_iff]
      intro h
      exact absurd (h b (by simp)) (by unfold ValidByte; omega)
    · rw [ih]
      constructor
      · intro h x hx
        rcases List.mem_cons.mp hx with rfl | hx
        · unfold ValidByte; omega
        · exact h x hx
      · intro h x hx
        exact h x (List.mem_cons_of_mem _ hx)
    · simp only [false_iff]
      intro h
      exact absurd (h b (by simp)) (by unfold ValidByte; omega)

/-- When the scan fails, the error kind is decided by the first byte (in
scan order) violating the invariant: `HeaderValueNotAscii` when that byte
is ≥ 0x80, `IncorrectCharInValue` otherwise. -/
theorem scanValue_eq_some (bs : List Nat) (e : HeaderError)
    (h : scanValue bs = some e) :
    ∃ pre b suf, bs = pre ++ b :: suf ∧ (∀ x ∈ pre, ValidByte x) ∧
      ¬ ValidByte b ∧
      e = if 0x80 ≤ b then HeaderError.HeaderValueNotAscii
          else HeaderError.IncorrectCharInValue := by
  induction bs generalizing e with
  | nil => simp [scanValue] at h
  | cons b rest ih =>
    rw [scanValue] at h
    split_ifs at h with h1 h2
    · refine ⟨[], b, rest, rfl, by simp, by unfold ValidByte; omega, ?_⟩
      rw [if_neg (by omega : ¬ (0x80 : Nat) ≤ b)]
      exact (Option.some.inj h).symm
    · obtain ⟨pre, b0, suf, hsplit, hpre, hbad, hkind⟩ := ih e h
      refine ⟨b :: pre, b0, suf, by rw [hsplit]; rfl, ?_, hbad, hkind⟩
      intro x hx
      rcases List.mem_cons.mp hx with rfl | hx
      · unfold ValidByte; omega
      · exact hpre x hx
    · refine ⟨[], b, rest, rfl, by simp, by unfold ValidByte; omega, ?_⟩
      rw [if_pos (by omega : (0x80 : Nat) ≤ b)]
      exact (Option.some.inj h).symm

/-! ## Claim theorems -/

/-- C1: for every window value and every unsigned delta, `try_increase`
fails if `delta = 0` or `delta > 2^31 - 1` (invalid increment); otherwise
it succeeds and sets the window to the sum exactly when that sum fits the
representable signed 32-bit range, and fails (overflow) when it would
not; in every failure case the window value is unchanged. -/
theorem try_increase_spec (w : WindowSize) (delta : Nat)
    (hw1 : i32Min ≤ w.val) (hw2 : w.val ≤ i32Max) (hd : delta < 2 ^ 32) :
    ((delta = 0 ∨ 2 ^ 31 - 1 < delta) →
        w.try_increase delta = (Except.error (), w)) ∧
    (0 < delta → delta ≤ 2 ^ 31 - 1 →
      ((i32Min ≤ w.val + delta ∧ w.val + delta ≤ i32Max →
          w.try_increase delta = (Except.ok (), ⟨w.val + delta⟩)) ∧
       (¬ (i32Min ≤ w.val + delta ∧ w.val + delta ≤ i32Max) →
          w.try_increase delta = (Except.error (), w)))) := by
  constructor
  · intro h
    have hc : MAX_WINDOW_SIZE_INC < delta ∨ delta = 0 := by
      unfold MAX_WINDOW_SIZE_INC; omega
    rw [try_increase_eq, if_pos hc]
  · intro h1 h2
    have hc : ¬ (MAX_WINDOW_SIZE_INC < delta ∨ delta = 0) := by
      unfold MAX_WINDOW_SIZE_INC; omega
    have hcast : u32_as_i32 delta = (delta : Int) := by
      unfold u32_as_i32
      rw [if_pos (by omega : delta < 2 ^ 31)]
    constructor
    · intro hfit
      rw [try_increase_eq, if_neg hc, hcast, if_pos hfit]
    · intro hnot
      rw [try_increase_eq, if_neg hc, hcast, if_neg hnot]

/-- C1 witness: a concrete successful increase, `10 + 5 = 15`. -/
theorem try_increase_spec_witness :
    (WindowSize.mk 10).try_increase 5 = (Except.ok (), WindowSize.mk 15) := by
  have h := ((try_increase_spec ⟨10⟩ 5 (by decide) (by decide) (by decide)).2
    (by decide) (by decide)).1 (by decide)
  exact h

/-- C2 counterexample: `try_decrease` can fail even though the
subtraction does not exceed the representable lower bound: from the
window value `2^31 - 1`, `try_decrease (-1)` returns an error although
`2147483647 - (-1)` is well above `i32Min` (it exceeds the upper bound
instead). -/
theorem try_decrease_lower_bound_only_counterexample :
    ((WindowSize.mk 2147483647).try_decrease (-1)).fst = Except.error () ∧
    i32Min ≤ (2147483647 : Int) - (-1) := by
  exact ⟨rfl, by decide⟩

/-- C2 amended: `try_decrease` subtracts the delta with no floor at zero
(the result may be negative), and it fails exactly when the difference
would not fit the representable signed 32-bit range — exceeding either
the lower or the upper bound — leaving the window unchanged in that
case. -/
theorem try_decrease_amended (w : WindowSize) (delta : Int)
    (hw1 : i32Min ≤ w.val) (hw2 : w.val ≤ i32Max)
    (hd1 : i32Min ≤ delta) (hd2 : delta ≤ i32Max) :
    (i32Min ≤ w.val - delta ∧ w.val - delta ≤ i32Max →
        w.try_decrease delta = (Except.ok (), ⟨w.val - delta⟩)) ∧
    (¬ (i32Min ≤ w.val - delta ∧ w.val - delta ≤ i32Max) →
        w.try_decrease delta = (Except.error (), w)) := by
  constructor
  · intro h
    rw [try_decrease_eq, if_pos h]
  · intro h
    rw [try_decrease_eq, if_neg h]

/-- C2 witness: from `W = 10`, `try_decrease 50` succeeds and yields
`-40`. -/
theorem try_decrease_amended_witness :
    (WindowSize.mk 10).try_decrease 50 = (Except.ok (), WindowSize.mk (-40)) := by
  have h := (try_decrease_amended ⟨10⟩ 50 (by decide) (by decide)
    (by decide) (by decide)).1 (by decide)
  exact h

/-- C3: atomicity of failure — whenever `try_increase`, `try_decrease`
or `try_decrease_to_positive` returns an error, the window value after
the call equals the window value before the call. -/
theorem mutations_atomic_on_failure (w : WindowSize) (du : Nat) (d : Int) :
    ((w.try_increase du).fst = Except.error () → (w.try_increase du).snd = w) ∧
    ((w.try_decrease d).fst = Except.error () → (w.try_decrease d).snd = w) ∧
    ((w.try_decrease_to_positive d).fst = Except.error () →
        (w.try_decrease_to_positive d).snd = w) := by
  refine ⟨?_, ?_, ?_⟩
  · rw [try_increase_eq]
    split_ifs <;> simp
  · rw [try_decrease_eq]
    split_ifs <;> simp
  · rw [try_decrease_to_positive_eq]
    split_ifs <;> simp

/-- C3 witness: three concrete failing calls on `W = 10` that leave the
window at 10. -/
theorem mutations_atomic_on_failure_witness :
    ((WindowSize.mk 10).try_increase 0).snd = WindowSize.mk 10 ∧
    ((WindowSize.mk 10).try_decrease (-2147483648)).snd = WindowSize.mk 10 ∧
    ((WindowSize.mk 10).try_decrease_to_positive (-2147483648)).snd
        = WindowSize.mk 10 := by
  have h := mutations_atomic_on_failure ⟨10⟩ 0 (-2147483648)
  exact ⟨h.1 rfl, h.2.1 rfl, h.2.2 rfl⟩

/-- C5 (code evaluated at the failing input): `unsigned` on the negative
window value `-1` does not panic; it returns the 2^32-wrapped value
`4294967295`.  The `assert_eq!(r as i32, self.0)` guard in the source is
vacuous, because the `i32 → u32 → i32` round-trip cast is the identity on
every 32-bit pattern, so the documented panic on a negative window never
fires. -/
theorem unsigned_negative_returns_wrapped :
    (WindowSize.mk (-1)).unsigned = some 4294967295 := by
  rfl

/-- C6: `try_decrease_to_positive` performs the same subtraction as
`try_decrease`, but fails with the window left unchanged whenever the
difference would be negative; when the difference is non-negative it
behaves like `try_decrease` (committing the in-range difference, failing
above the upper bound). -/
theorem try_decrease_to_positive_spec (w : WindowSize) (delta : Int)
    (hw1 : i32Min ≤ w.val) (hw2 : w.val ≤ i32Max)
    (hd1 : i32Min ≤ delta) (hd2 : delta ≤ i32Max) :
    (0 ≤ w.val - delta → w.val - delta ≤ i32Max →
        w.try_decrease_to_positive delta = (Except.ok (), ⟨w.val - delta⟩)) ∧
    (w.val - delta < 0 →
        w.try_decrease_to_positive delta = (Except.error (), w)) ∧
    (i32Max < w.val - delta →
        w.try_decrease_to_positive delta = (Except.error (), w)) := by
  refine ⟨?_, ?_, ?_⟩
  · intro h1 h2
    have hlo : i32Min ≤ w.val - delta := by
      simp only [i32Min]; omega
    rw [try_decrease_to_positive_eq, if_pos ⟨hlo, h2⟩, if_pos h1]
  · intro h1
    rw [try_decrease_to_positive_eq]
    split_ifs with hc hnn
    · exact absurd hnn (by omega)
    · rfl
    · rfl
  · intro h1
    have hc : ¬ (i32Min ≤ w.val - delta ∧ w.val - delta ≤ i32Max) := by
      intro hc; exact absurd hc.2 (by omega)
    rw [try_decrease_to_positive_eq, if_neg hc]

/-- C6 witness: from `W = 10`, `try_decrease_to_positive 50` fails and
the window stays 10. -/
theorem try_decrease_to_positive_spec_witness :
    (WindowSize.mk 10).try_decrease_to_positive 50
        = (Except.error (), WindowSize.mk 10) :=
  (try_decrease_to_positive_spec ⟨10⟩ 50 (by decide) (by decide)
    (by decide) (by decide)).2.1 (by decide)

/-- C8: the two named constants `MAX_WINDOW_SIZE` and
`MAX_WINDOW_SIZE_INC` are both exactly `2^31 - 1`, so the ceiling on the
window value and the ceiling on a single increment are the same
number. -/
theorem max_window_constants :
    MAX_WINDOW_SIZE = 2 ^ 31 - 1 ∧ MAX_WINDOW_SIZE_INC = 2 ^ 31 - 1 ∧
    MAX_WINDOW_SIZE = MAX_WINDOW_SIZE_INC := by
  refine ⟨?_, ?_, rfl⟩ <;> decide

/-- C10: `try_decrease` with delta 0 succeeds and leaves the window value
unchanged (a no-op), in contrast to `try_increase`, which rejects a zero
delta; and a negative delta makes `try_decrease` grow the window,
succeeding exactly when the result fits the representable signed 32-bit
range. -/
theorem try_decrease_zero_noop_and_negative_grows (w : WindowSize) (delta : Int)
    (hw1 : i32Min ≤ w.val) (hw2 : w.val ≤ i32Max) (hd : delta < 0)
    (hd1 : i32Min ≤ delta) :
    w.try_decrease 0 = (Except.ok (), w) ∧
    (w.try_increase 0).fst = Except.error () ∧
    (w.val - delta ≤ i32Max → w.try_decrease delta = (Except.ok (), ⟨w.val - delta⟩)) ∧
    (i32Max < w.val - delta → w.try_decrease delta = (Except.error (), w)) := by
  refine ⟨?_, ?_, ?_, ?_⟩
  · rw [try_decrease_eq, if_pos (by constructor <;> omega)]
    simp
  · rw [try_increase_eq, if_pos (Or.inr rfl)]
  · intro h
    have hlo : i32Min ≤ w.val - delta := by simp only [i32Min] at hw1 ⊢; omega
    rw [try_decrease_eq, if_pos ⟨hlo, h⟩]
  · intro h
    have hc : ¬ (i32Min ≤ w.val - delta ∧ w.val - delta ≤ i32Max) := by
      intro hc; exact absurd hc.2 (by omega)
    rw [try_decrease_eq, if_neg hc]

/-- C10 witness: from `W = 10`, `try_decrease 0` is a no-op,
`try_increase 0` errors, and `try_decrease (-5)` grows the window
to 15. -/
theorem try_decrease_zero_noop_witness :
    (WindowSize.mk 10).try_decrease 0 = (Except.ok (), WindowSize.mk 10) ∧
    ((WindowSize.mk 10).try_increase 0).fst = Except.error () ∧
    (WindowSize.mk 10).try_decrease (-5) = (Except.ok (), WindowSize.mk 15) := by
  have h := try_decrease_zero_noop_and_negative_grows ⟨10⟩ (-5) (by decide)
    (by decide) (by decide) (by decide)
  exact ⟨h.1, h.2.1, h.2.2.1 (by decide)⟩

/-- C4: `HeaderValue::from_bytes` succeeds if and only if every byte is
0x09 or within [0x20, 0x7E]; on failure the error kind is determined by
the first offending byte in scan order — a byte ≥ 0x80 yields
`HeaderValueNotAscii`, any other disallowed byte yields
`IncorrectCharInValue`. -/
theorem from_bytes_validates (bs : List Nat) :
    ((∃ v, HeaderValue.from_bytes bs = Except.ok v) ↔ ∀ b ∈ bs, ValidByte b) ∧
    (∀ e rest, HeaderValue.from_bytes bs = Except.error (e, rest) →
       ∃ pre b suf, bs = pre ++ b :: suf ∧ (∀ x ∈ pre, ValidByte x) ∧
         ¬ ValidByte b ∧
         e = if 0x80 ≤ b then HeaderError.HeaderValueNotAscii
             else HeaderError.IncorrectCharInValue) := by
  constructor
  · constructor
    · rintro ⟨v, hv⟩
      rw [← scanValue_eq_none_iff]
      unfold HeaderValue.from_bytes at hv
      split at hv
      · cases hv
      · rename_i heq
        exact heq
    · intro h
      have hn := (scanValue_eq_none_iff bs).mpr h
      refine ⟨⟨bs⟩, ?_⟩
      unfold HeaderValue.from_bytes
      rw [hn]
  · intro e rest herr
    unfold HeaderValue.from_bytes at herr
    split at herr
    · rename_i e0 heq
      injection herr with hpair
      rw [Prod.mk.injEq] at hpair
      obtain ⟨rfl, rfl⟩ := hpair
      exact scanValue_eq_some bs e0 heq
    · cases herr

/-- C4 witness: the all-valid buffer `"Hi"` (bytes 72, 105) is
accepted. -/
theorem from_bytes_validates_witness :
    ∃ v, HeaderValue.from_bytes [72, 105] = Except.ok v :=
  (from_bytes_validates [72, 105]).1.mpr (by decide)

/-- C7: round-trip — when `from_bytes` succeeds, `into_inner` and
`as_slice` on the validated value return exactly the original input; when
it fails, the buffer returned alongside the error is the original input
unmodified. -/
theorem from_bytes_roundtrip (bs : List Nat) :
    (∀ v, HeaderValue.from_bytes bs = Except.ok v →
        v.into_inner = bs ∧ v.as_slice = bs) ∧
    (∀ e rest, HeaderValue.from_bytes bs = Except.error (e, rest) → rest = bs) := by
  constructor
  · intro v hv
    unfold HeaderValue.from_bytes at hv
    split at hv
    · cases hv
    · injection hv with h
      subst h
      exact ⟨rfl, rfl⟩
  · intro e rest herr
    unfold HeaderValue.from_bytes at herr
    split at herr
    · injection herr with hpair
      rw [Prod.mk.injEq] at hpair
      exact hpair.2.symm
    · cases herr

/-- C7 witness: the accepted buffer `[72, 105]` round-trips through the
validated value. -/
theorem from_bytes_roundtrip_witness :
    (HeaderValue.mk [72, 105]).into_inner = [72, 105] ∧
    (HeaderValue.mk [72, 105]).as_slice = [72, 105] :=
  (from_bytes_roundtrip [72, 105]).1 ⟨[72, 105]⟩ rfl

/-- C9: the infallible `From` conversions into `HeaderValue` panic
(embedded as `none`) exactly when the input contains a byte that is not
0x09 and not within [0x20, 0x7E]; every value they do produce satisfies
the header-value byte invariant. -/
theorem headerValueFrom_spec (bs : List Nat) :
    (headerValueFrom bs = none ↔ ¬ ∀ b ∈ bs, ValidByte b) ∧
    (∀ v, headerValueFrom bs = some v → ∀ b ∈ v.bytes, ValidByte b) := by
  have key : headerValueFrom bs =
      match scanValue bs with
      | none => some ⟨bs⟩
      | some _ => none := by
    unfold headerValueFrom HeaderValue.from_bytes
    cases scanValue bs <;> rfl
  constructor
  · rw [key, ← scanValue_eq_none_iff]
    cases scanValue bs <;> simp
  · intro v hv
    rw [key] at hv
    cases hs : scanValue bs with
    | none =>
      rw [hs] at hv
      injection hv with h
      subst h
      exact (scanValue_eq_none_iff bs).mp hs
    | some e =>
      rw [hs] at hv
      cases hv

/-- C9 witness: the newline byte 0x0A makes the infallible conversion
panic (`none`). -/
theorem headerValueFrom_spec_witness : headerValueFrom [10] = none :=
  (headerValueFrom_spec [10]).1.mpr (by decide)
